import Mathlib

/-!
Verification of the `httpx` resilient HTTP client (pkg/httpx/httpx.go).

The client code is shallowly embedded below. Pure helpers (`normalizeConfig`,
`shouldRetry`, `sleepBackoff`, `pickUA`, `headerLookup`, `setRequestHeaders`)
are translated directly. The effectful retry loop of `realClient.Do` is
embedded as a pure function over an explicit environment `Env` that supplies
the behaviour of the external collaborators (net/http transport, `url.Parse`,
the random jitter draws) and the caller's context, together with an explicit
clock and an event trace recording network calls and backoff sleeps.
-/

namespace Httpx

/-- Go `time.Duration`, in nanoseconds. -/
abbrev Duration := Int

def millisecond : Duration := 1000000

def second : Duration := 1000000000

/-- Case-insensitive key comparison. Models Go `strings.EqualFold` as used by
`headerLookup`, and agrees with `textproto.CanonicalMIMEHeaderKey` equality
for the ASCII header keys used by this client. Compares the lower-cased
character lists so that it evaluates by structural recursion. -/
def keyFold (a b : String) : Bool := a.data.map Char.toLower == b.data.map Char.toLower

/-- `Config` from httpx.go. `RetryOn func(status int, err error) bool` is
modelled with the error as `Option String` (`none` = nil error). -/
structure Config where
  timeout : Duration := 0
  maxRetries : Int := 0
  backoffInitial : Duration := 0
  backoffMax : Duration := 0
  userAgents : List String := []
  baseHeaders : List (String × String) := []
  retryStatus : List Int := []
  retryOn : Option (Int → Option String → Bool) := none

/-- `normalizeConfig` from httpx.go: fill defaults for non-positive durations,
clamp negative `MaxRetries` to 0, and populate `RetryStatus` with 429 plus
500..599 when the caller supplied neither `RetryStatus` nor `RetryOn`. -/
def normalizeConfig (cfg : Config) : Config :=
  let cfg := if cfg.timeout ≤ 0 then { cfg with timeout := 10 * second } else cfg
  let cfg := if cfg.maxRetries < 0 then { cfg with maxRetries := 0 } else cfg
  let cfg := if cfg.backoffInitial ≤ 0 then { cfg with backoffInitial := second } else cfg
  let cfg := if cfg.backoffMax ≤ 0 then { cfg with backoffMax := 30 * second } else cfg
  if cfg.retryStatus.length = 0 ∧ cfg.retryOn.isNone then
    { cfg with retryStatus := 429 :: (List.range 100).map (fun i => 500 + (i : Int)) }
  else cfg

/-- `realClient.shouldRetry` from httpx.go: a custom `RetryOn` predicate, when
present, decides alone; otherwise any non-nil error is retryable, and a nil
error is retryable exactly when the status is in the `RetryStatus` list. -/
def shouldRetry (cfg : Config) (status : Int) (err : Option String) : Bool :=
  match cfg.retryOn with
  | some p => p status err
  | none =>
    if err.isSome then true
    else cfg.retryStatus.contains status

/-- `realClient.sleepBackoff` from httpx.go, returning the duration slept.
The code computes `float64(BackoffInitial) * math.Pow(2, attempt)` plus
`time.Duration(rand.Intn(250)) * time.Millisecond` of jitter and caps the
result at `BackoffMax`. The random draw `rand.Intn(250)` is injected here as
`jitterMs`; the float64 arithmetic is modelled exactly over `Int` (it is exact
in the source for all values below 2^53 ns). -/
def sleepBackoff (cfg : Config) (attempt : Nat) (jitterMs : Nat) : Duration :=
  let backoff := cfg.backoffInitial * 2 ^ attempt + (jitterMs : Int) * millisecond
  if backoff > cfg.backoffMax then cfg.backoffMax else backoff

/-- The hardcoded fallback User-Agent from `realClient.pickUA`. -/
def defaultUserAgent : String :=
  "Mozilla/5.0 (iPhone; CPU iPhone OS 17_0 like Mac OS X) AppleWebKit/605.1.15 (KHTML, like Gecko) Version/17.0 Mobile/15E148 Safari/604.1"

/-- `realClient.pickUA` from httpx.go; the `rand.Intn(len(UserAgents))` draw
is injected as `draw` (reduced modulo the pool size). -/
def pickUA (cfg : Config) (draw : Nat) : String :=
  if cfg.userAgents.length = 0 then defaultUserAgent
  else cfg.userAgents.getD (draw % cfg.userAgents.length) ""

/-- `headerLookup` from httpx.go: case-insensitive scan of a header map,
returning the value and whether the key was found. -/
def headerLookup (h : List (String × String)) (key : String) : String × Bool :=
  match h.find? (fun p => keyFold p.1 key) with
  | some p => (p.2, true)
  | none => ("", false)

/-- An `http.Header` carrying single-valued entries, as produced by
`req.Header.Set`. Keys are unique up to case once built by `headerSet`. -/
abbrev Header := List (String × String)

/-- Model of `req.Header.Set(k, v)`: keys equal up to case are canonicalized
to the same entry, so `Set` replaces any existing entry for the key. -/
def headerSet (h : Header) (k v : String) : Header :=
  h.filter (fun p => !(keyFold p.1 k)) ++ [(k, v)]

/-- Case-insensitive read of a built header, modelling `req.Header.Get`. -/
def headerGet (h : Header) (k : String) : Option String :=
  (h.find? (fun p => keyFold p.1 k)).map (fun p => p.2)

/-- `for k, v := range m { req.Header.Set(k, v) }`: apply every entry of a
header map with `Set`. -/
def setAll (h : Header) (l : List (String × String)) : Header :=
  l.foldl (fun h p => headerSet h p.1 p.2) h

/-- `realClient.setRequestHeaders` from httpx.go: apply `BaseHeaders`, then
auto-fill `User-Agent` (via `pickUA`), `Accept`, and `Accept-Language` only
when the caller's per-request headers lack the key (checked with
`headerLookup` against `customHeaders` only), then apply the caller's
headers last. `uaDraw` injects the random draw consumed by `pickUA`. -/
def setRequestHeaders (cfg : Config) (uaDraw : Nat) (custom : List (String × String)) : Header :=
  let h := setAll [] cfg.baseHeaders
  let h := if (headerLookup custom "User-Agent").2 then h
           else headerSet h "User-Agent" (pickUA cfg uaDraw)
  let h := if (headerLookup custom "Accept").2 then h
           else headerSet h "Accept" "*/*"
  let h := if (headerLookup custom "Accept-Language").2 then h
           else headerSet h "Accept-Language" "en-US,en;q=0.9"
  setAll h custom

/-- `Request` from httpx.go (the body stream is not observable in this model). -/
structure Request where
  method : String := ""
  url : String := ""
  params : List (String × String) := []
  headers : List (String × String) := []

/-- `Response` from httpx.go; the body bytes are modelled as a `String`. -/
structure Response where
  status : Int := 0
  body : String := ""
  headers : List (String × String) := []
  url : String := ""
deriving DecidableEq, Repr

/-- Internal error values that `Do` tracks in `lastErr`. -/
inductive GoErr where
  | transport (e : String)
  | readBody (e : String)
  | retryableStatus (status : Int)
deriving DecidableEq, Repr

/-- The distinguishable error results of `Do`. `emptyURL` is `ErrEmptyURL`;
`invalidURL` wraps the parse error under `ErrInvalidURL`; `ctxCanceled` is the
bare `ctx.Err()`; `requestFailed` and `readBodyFailed` are the non-sentinel
wrapped errors; `maxRetriesStatus` and `maxRetriesExhausted` are the two
returns that wrap `ErrMaxRetries`. -/
inductive DoError where
  | emptyURL
  | invalidURL (e : String)
  | buildRequest (e : String)
  | ctxCanceled
  | requestFailed (e : String)
  | readBodyFailed (e : String)
  | maxRetriesStatus (status : Int)
  | maxRetriesExhausted (lastErr : Option GoErr)
deriving DecidableEq, Repr

/-- `errors.Is(err, ErrMaxRetries)`: exactly the two `ErrMaxRetries`-wrapping
returns match. -/
def DoError.isMaxRetries : DoError → Bool
  | .maxRetriesStatus _ => true
  | .maxRetriesExhausted _ => true
  | _ => false

/-- The transport's behaviour on one attempt, when the context is live:
either a transport-level error, or a reply with a status, body bytes, headers
and the outcome of `io.ReadAll` on the body. -/
inductive AttemptOutcome where
  | netErr (e : String)
  | reply (status : Int) (body : String) (headers : List (String × String))
      (readErr : Option String)

/-- Observable events of one `Do` call: network calls and backoff sleeps,
each stamped with the loop's attempt index and a logical clock. -/
inductive Event where
  | netCall (attempt clock : Nat)
  | sleep (attempt clock : Nat) (delay : Duration)
deriving DecidableEq, Repr

/-- The environment of one `Do` call: the outcome of `buildURL`'s call to
`url.Parse` for this request, the outcome of `http.NewRequestWithContext`
(deterministic in the method and URL, hence attempt independent), the
transport behaviour per attempt, the jitter draws, and the caller's context
modelled as an optional clock tick from which it counts as cancelled. -/
structure Env where
  parseResult : Except String String
  buildReqErr : Option String := none
  world : Nat → AttemptOutcome
  jitter : Nat → Nat
  cancelAt : Option Nat := none

/-- Whether the context is cancelled at clock `t` (cancellation is monotone). -/
def ctxDone (cancelAt : Option Nat) (t : Nat) : Bool :=
  match cancelAt with
  | some c => c ≤ t
  | none => false

/-- The result of `Do`: the Go pair `(Response, error)` plus the event trace. -/
structure DoResult where
  resp : Response
  err : Option DoError
  trace : List Event
deriving DecidableEq, Repr

/-- The attempt loop of `realClient.Do` (httpx.go lines spanning
`for attempt := 0; attempt <= c.cfg.MaxRetries; attempt++` through the final
`ErrMaxRetries` return). `fuel` counts the remaining loop iterations, so the
`fuel = 0` case is the code's post-loop `return ... ErrMaxRetries ... lastErr`.
A network call with a cancelled context fails (net/http guarantees this for a
request bound to a done context), and the subsequent `ctx.Err() != nil` check
then returns the context's own error. Each network call and each sleep
advances the clock by one tick. -/
def doLoop (cfg : Config) (env : Env) (u : String) :
    Nat → Nat → Option GoErr → Nat → DoResult
  | _, _, lastErr, 0 => ⟨{}, some (.maxRetriesExhausted lastErr), []⟩
  | attempt, t, _, fuel + 1 =>
    match env.buildReqErr with
    | some e => ⟨{}, some (.buildRequest e), []⟩
    | none =>
      let call := Event.netCall attempt t
      if ctxDone env.cancelAt t then
        ⟨{}, some .ctxCanceled, [call]⟩
      else
        match env.world attempt with
        | .netErr e =>
          if shouldRetry cfg 0 (some e) ∧ (attempt : Int) < cfg.maxRetries then
            let d := sleepBackoff cfg attempt (env.jitter attempt)
            let rest := doLoop cfg env u (attempt + 1) (t + 2) (some (.transport e)) fuel
            ⟨rest.resp, rest.err, call :: Event.sleep attempt (t + 1) d :: rest.trace⟩
          else
            ⟨{}, some (.requestFailed e), [call]⟩
        | .reply st body hs readErr =>
          let res : Response := ⟨st, body, hs, u⟩
          match readErr with
          | some re =>
            if shouldRetry cfg st (some re) ∧ (attempt : Int) < cfg.maxRetries then
              let d := sleepBackoff cfg attempt (env.jitter attempt)
              let rest := doLoop cfg env u (attempt + 1) (t + 2) (some (.readBody re)) fuel
              ⟨rest.resp, rest.err, call :: Event.sleep attempt (t + 1) d :: rest.trace⟩
            else
              ⟨res, some (.readBodyFailed re), [call]⟩
          | none =>
            if shouldRetry cfg st none ∧ (attempt : Int) < cfg.maxRetries then
              let d := sleepBackoff cfg attempt (env.jitter attempt)
              let rest := doLoop cfg env u (attempt + 1) (t + 2)
                  (some (.retryableStatus st)) fuel
              ⟨rest.resp, rest.err, call :: Event.sleep attempt (t + 1) d :: rest.trace⟩
            else if shouldRetry cfg st none ∧ 0 < attempt ∧ cfg.maxRetries ≤ (attempt : Int) then
              ⟨{}, some (.maxRetriesStatus st), [call]⟩
            else
              ⟨res, none, [call]⟩

/-- `realClient.Do` from httpx.go: reject an empty URL, build the final URL
(`buildURL`, whose `url.Parse` outcome is `env.parseResult`; a failure is
wrapped under `ErrInvalidURL`), then run the attempt loop. The method
defaulting to GET is not observable in this model. The loop bound
`attempt <= c.cfg.MaxRetries` gives `(MaxRetries + 1).toNat` iterations. -/
def Do (cfg : Config) (env : Env) (r : Request) : DoResult :=
  if r.url = "" then ⟨{}, some .emptyURL, []⟩
  else
    match env.parseResult with
    | .error e => ⟨{}, some (.invalidURL e), []⟩
    | .ok u => doLoop cfg env u 0 0 none (cfg.maxRetries + 1).toNat

/-- Number of network attempts recorded in a trace. -/
def netCalls (tr : List Event) : Nat :=
  (tr.filter (fun e => match e with | .netCall _ _ => true | _ => false)).length

/-- The attempt indices of the sleep events of a trace, in order. -/
def sleepAttempts (tr : List Event) : List Nat :=
  tr.filterMap (fun e => match e with | .sleep a _ _ => some a | _ => none)

/-- The sleep events of a trace as (attempt, clock, delay) triples, in order. -/
def sleepEvents (tr : List Event) : List (Nat × Nat × Duration) :=
  tr.filterMap (fun e => match e with | .sleep a t d => some (a, t, d) | _ => none)

/-- The shape of the `i`-th backoff sleep of a loop started at attempt `a`
and clock `t`: attempt index `a + i`, clock `t + 2i + 1`, and the
`sleepBackoff` delay for that attempt's jitter draw. -/
def sleepShape (cfg : Config) (env : Env) (a t : Nat) (i : Nat) : Nat × Nat × Duration :=
  (a + i, t + 2 * i + 1, sleepBackoff cfg (a + i) (env.jitter (a + i)))

/-- A header map whose keys are pairwise distinct up to case, as Go maps with
case-insensitively unique keys are. Needed because Go map iteration order is
unspecified: under this hypothesis the merge result is order independent. -/
abbrev DistinctKeys (l : List (String × String)) : Prop :=
  l.Pairwise (fun p q => keyFold p.1 q.1 = false)

/-- A well-formed example URL used by the concrete instances below. -/
def exampleURL : String := "https://example.com"

def reqEx : Request := { url := exampleURL }

/-- The zero config after normalization: `MaxRetries = 0`, default retry
policy (429 and 500..599). -/
def cfgN0 : Config := normalizeConfig {}

/-- A normalized config with `MaxRetries = 1`. -/
def cfgN1 : Config := normalizeConfig { maxRetries := 1 }

/-- A transport that always answers 500 with an empty, readable body. -/
def env500 : Env :=
  { parseResult := .ok exampleURL
    world := fun _ => .reply 500 "" [] none
    jitter := fun _ => 0 }

/-- A transport that always fails with a transport-level error. -/
def envBoom : Env :=
  { parseResult := .ok exampleURL
    world := fun _ => .netErr "boom"
    jitter := fun _ => 0 }

/-- `env500` with the context already cancelled when `Do` starts. -/
def envPre : Env := { env500 with cancelAt := some 0 }

/-- `env500` with the context cancelled at clock 1: right after the first
network call has returned, as the first backoff sleep is entered. -/
def envMid : Env := { env500 with cancelAt := some 1 }

/-- An environment whose `url.Parse` call fails (e.g. the URL `://invalid`). -/
def envBadURL : Env :=
  { parseResult := .error "missing protocol scheme"
    world := fun _ => .reply 200 "" [] none
    jitter := fun _ => 0 }

/-- Header fixtures: a base map that already carries a User-Agent, and a
caller map with a custom key and a case-variant Accept. -/
def cfgHdr : Config := { baseHeaders := [("User-Agent", "base-ua"), ("X-Base", "bv")] }

def customHdr : List (String × String) := [("x-custom", "cv"), ("ACCEPT", "text/html")]

theorem keyFold_iff {a b : String} :
    keyFold a b = true ↔ a.data.map Char.toLower = b.data.map Char.toLower := by
  simp [keyFold]

theorem keyFold_false_iff {a b : String} :
    keyFold a b = false ↔ a.data.map Char.toLower ≠ b.data.map Char.toLower := by
  simp [keyFold]

theorem keyFold_comm (a b : String) : keyFold a b = keyFold b a := by
  by_cases h : a.data.map Char.toLower = b.data.map Char.toLower
  · rw [keyFold_iff.2 h, keyFold_iff.2 h.symm]
  · rw [keyFold_false_iff.2 h, keyFold_false_iff.2 (fun hc => h hc.symm)]

theorem headerGet_nil (k : String) : headerGet [] k = none := rfl

theorem headerGet_cons (x : String × String) (t : Header) (k : String) :
    headerGet (x :: t) k = if keyFold x.1 k then some x.2 else headerGet t k := by
  by_cases hx : keyFold x.1 k = true <;> simp [headerGet, List.find?_cons, hx]

theorem headerGet_headerSet (h : Header) (a v k : String) :
    headerGet (headerSet h a v) k = if keyFold a k then some v else headerGet h k := by
  unfold headerSet
  induction h with
  | nil =>
    by_cases hak : keyFold a k = true <;>
      simp [headerGet, List.find?_cons, hak]
  | cons x t ih =>
    by_cases hxa : keyFold x.1 a = true
    · have hstep : (x :: t).filter (fun p => !(keyFold p.1 a)) =
          t.filter (fun p => !(keyFold p.1 a)) := by
        simp [List.filter_cons, hxa]
      rw [hstep, ih]
      by_cases hak : keyFold a k = true
      · simp [hak]
      · have hxk : keyFold x.1 k = false := by
          rcases hc : keyFold x.1 k with _ | _
          · rfl
          · exact absurd (keyFold_iff.2 ((keyFold_iff.1 hxa).symm.trans (keyFold_iff.1 hc))) (by simp [hak])
        simp [hak, headerGet_cons, hxk]
    · have hstep : (x :: t).filter (fun p => !(keyFold p.1 a)) =
          x :: t.filter (fun p => !(keyFold p.1 a)) := by
        simp [List.filter_cons, hxa]
      rw [hstep, List.cons_append, headerGet_cons, ih]
      by_cases hak : keyFold a k = true
      · have hxk : keyFold x.1 k = false := by
          rcases hc : keyFold x.1 k with _ | _
          · rfl
          · exact absurd (keyFold_iff.2 ((keyFold_iff.1 hc).trans (keyFold_iff.1 hak).symm)) (by simp [hxa])
        simp [hak, hxk]
      · simp [hak, headerGet_cons]

theorem setAll_nil (h : Header) : setAll h [] = h := rfl

theorem setAll_cons (h : Header) (x : String × String) (t : List (String × String)) :
    setAll h (x :: t) = setAll (headerSet h x.1 x.2) t := rfl

theorem headerGet_setAll_not_in (l : List (String × String)) (h : Header) (k : String)
    (hk : ∀ p ∈ l, keyFold p.1 k = false) :
    headerGet (setAll h l) k = headerGet h k := by
  induction l generalizing h with
  | nil => rfl
  | cons x t ih =>
    rw [setAll_cons, ih _ (fun p hp => hk p (List.mem_cons_of_mem x hp)),
      headerGet_headerSet]
    simp [hk x (List.mem_cons_self x t)]

theorem headerGet_setAll_in (l : List (String × String)) (h : Header) (a v k : String)
    (hd : DistinctKeys l) (hmem : (a, v) ∈ l) (hak : keyFold a k = true) :
    headerGet (setAll h l) k = some v := by
  induction l generalizing h with
  | nil => exact absurd hmem (List.not_mem_nil _)
  | cons x t ih =>
    replace hd := List.pairwise_cons.1 hd
    rcases List.mem_cons.1 hmem with heq | hmem2
    · rw [setAll_cons, headerGet_setAll_not_in, ← heq, headerGet_headerSet]
      · simp [hak]
      · intro p hp
        rcases hc : keyFold p.1 k with _ | _
        · rfl
        · have h1 : keyFold x.1 p.1 = false := hd.1 p hp
          have h2 : x.1.data.map Char.toLower = p.1.data.map Char.toLower := by
            rw [← heq]
            exact (keyFold_iff.1 hak).trans (keyFold_iff.1 hc).symm
          rw [keyFold_iff.2 h2] at h1
          exact absurd h1 (by simp)
    · exact ih _ hd.2 hmem2

theorem headerLookup_false_iff (h : List (String × String)) (key : String) :
    (headerLookup h key).2 = false ↔ ∀ p ∈ h, keyFold p.1 key = false := by
  unfold headerLookup
  rcases hf : h.find? (fun p => keyFold p.1 key) with _ | p
  · simp only [hf]
    rw [List.find?_eq_none] at hf
    constructor
    · intro _ p hp
      simpa using hf p hp
    · intro _
      trivial
  · simp only [hf]
    constructor
    · intro hfalse
      simp at hfalse
    · intro hall
      have h1 := List.find?_some hf
      have h2 := List.mem_of_find?_eq_some hf
      rw [hall p h2] at h1
      simp at h1

/-- Exiting the loop with no iterations left is the code's final
`return Response{}, fmt.Errorf("%w: %v", ErrMaxRetries, lastErr)`. -/
theorem doLoop_zero (cfg : Config) (env : Env) (u : String) (a t : Nat)
    (le : Option GoErr) :
    doLoop cfg env u a t le 0 = ⟨{}, some (.maxRetriesExhausted le), []⟩ := rfl

/-- A loop iteration entered with an already-cancelled context performs one
network call, which fails because the request is bound to the context, and the
`ctx.Err() != nil` check returns the context's own error at once. -/
theorem doLoop_cancelled (cfg : Config) (env : Env) (u : String) (a t : Nat)
    (le : Option GoErr) (fuel : Nat)
    (hb : env.buildReqErr = none)
    (hc : ctxDone env.cancelAt t = true) :
    doLoop cfg env u a t le (fuel + 1) = ⟨{}, some .ctxCanceled, [Event.netCall a t]⟩ := by
  simp [doLoop, hb, hc]

/-- One loop iteration when `http.NewRequestWithContext` fails. -/
theorem doLoop_buildReq (cfg : Config) (env : Env) (u : String) (a t : Nat)
    (le : Option GoErr) (fuel : Nat) (e : String)
    (hb : env.buildReqErr = some e) :
    doLoop cfg env u a t le (fuel + 1) = ⟨{}, some (.buildRequest e), []⟩ := by
  conv_lhs => rw [doLoop]
  rw [hb]

/-- One loop iteration: live context, transport error, retry granted. -/
theorem doLoop_netErr_retry (cfg : Config) (env : Env) (u : String) (a t : Nat)
    (le : Option GoErr) (fuel : Nat) (e : String)
    (hb : env.buildReqErr = none)
    (hctx : ctxDone env.cancelAt t = false)
    (hw : env.world a = .netErr e)
    (hcond : shouldRetry cfg 0 (some e) = true ∧ (a : Int) < cfg.maxRetries) :
    doLoop cfg env u a t le (fuel + 1) =
      ⟨(doLoop cfg env u (a + 1) (t + 2) (some (.transport e)) fuel).resp,
       (doLoop cfg env u (a + 1) (t + 2) (some (.transport e)) fuel).err,
       Event.netCall a t ::
         Event.sleep a (t + 1) (sleepBackoff cfg a (env.jitter a)) ::
           (doLoop cfg env u (a + 1) (t + 2) (some (.transport e)) fuel).trace⟩ := by
  conv_lhs => rw [doLoop]
  rw [hb]
  simp only [hctx, Bool.false_eq_true, if_false, hw]
  rw [if_pos hcond]

/-- One loop iteration: live context, transport error, no retry. -/
theorem doLoop_netErr_stop (cfg : Config) (env : Env) (u : String) (a t : Nat)
    (le : Option GoErr) (fuel : Nat) (e : String)
    (hb : env.buildReqErr = none)
    (hctx : ctxDone env.cancelAt t = false)
    (hw : env.world a = .netErr e)
    (hcond : ¬(shouldRetry cfg 0 (some e) = true ∧ (a : Int) < cfg.maxRetries)) :
    doLoop cfg env u a t le (fuel + 1) =
      ⟨{}, some (.requestFailed e), [Event.netCall a t]⟩ := by
  conv_lhs => rw [doLoop]
  rw [hb]
  simp only [hctx, Bool.false_eq_true, if_false, hw]
  rw [if_neg hcond]

/-- One loop iteration: live context, reply whose body read fails, retry. -/
theorem doLoop_readErr_retry (cfg : Config) (env : Env) (u : String) (a t : Nat)
    (le : Option GoErr) (fuel : Nat) (st : Int) (bd : String)
    (hs : List (String × String)) (re : String)
    (hb : env.buildReqErr = none)
    (hctx : ctxDone env.cancelAt t = false)
    (hw : env.world a = .reply st bd hs (some re))
    (hcond : shouldRetry cfg st (some re) = true ∧ (a : Int) < cfg.maxRetries) :
    doLoop cfg env u a t le (fuel + 1) =
      ⟨(doLoop cfg env u (a + 1) (t + 2) (some (.readBody re)) fuel).resp,
       (doLoop cfg env u (a + 1) (t + 2) (some (.readBody re)) fuel).err,
       Event.netCall a t ::
         Event.sleep a (t + 1) (sleepBackoff cfg a (env.jitter a)) ::
           (doLoop cfg env u (a + 1) (t + 2) (some (.readBody re)) fuel).trace⟩ := by
  conv_lhs => rw [doLoop]
  rw [hb]
  simp only [hctx, Bool.false_eq_true, if_false, hw]
  rw [if_pos hcond]

/-- One loop iteration: live context, reply whose body read fails, no retry:
the response and the wrapped read error are returned together. -/
theorem doLoop_readErr_stop (cfg : Config) (env : Env) (u : String) (a t : Nat)
    (le : Option GoErr) (fuel : Nat) (st : Int) (bd : String)
    (hs : List (String × String)) (re : String)
    (hb : env.buildReqErr = none)
    (hctx : ctxDone env.cancelAt t = false)
    (hw : env.world a = .reply st bd hs (some re))
    (hcond : ¬(shouldRetry cfg st (some re) = true ∧ (a : Int) < cfg.maxRetries)) :
    doLoop cfg env u a t le (fuel + 1) =
      ⟨⟨st, bd, hs, u⟩, some (.readBodyFailed re), [Event.netCall a t]⟩ := by
  conv_lhs => rw [doLoop]
  rw [hb]
  simp only [hctx, Bool.false_eq_true, if_false, hw]
  rw [if_neg hcond]

/-- One loop iteration: live context, readable reply, retryable status with
attempts remaining. -/
theorem doLoop_reply_retry (cfg : Config) (env : Env) (u : String) (a t : Nat)
    (le : Option GoErr) (fuel : Nat) (st : Int) (bd : String)
    (hs : List (String × String))
    (hb : env.buildReqErr = none)
    (hctx : ctxDone env.cancelAt t = false)
    (hw : env.world a = .reply st bd hs none)
    (hcond : shouldRetry cfg st none = true ∧ (a : Int) < cfg.maxRetries) :
    doLoop cfg env u a t le (fuel + 1) =
      ⟨(doLoop cfg env u (a + 1) (t + 2) (some (.retryableStatus st)) fuel).resp,
       (doLoop cfg env u (a + 1) (t + 2) (some (.retryableStatus st)) fuel).err,
       Event.netCall a t ::
         Event.sleep a (t + 1) (sleepBackoff cfg a (env.jitter a)) ::
           (doLoop cfg env u (a + 1) (t + 2) (some (.retryableStatus st)) fuel).trace⟩ := by
  conv_lhs => rw [doLoop]
  rw [hb]
  simp only [hctx, Bool.false_eq_true, if_false, hw]
  rw [if_pos hcond]

/-- One loop iteration: live context, readable reply, retryable status with
no attempts left on a positive attempt index: the in-loop `ErrMaxRetries`
return. -/
theorem doLoop_reply_maxRetries (cfg : Config) (env : Env) (u : String) (a t : Nat)
    (le : Option GoErr) (fuel : Nat) (st : Int) (bd : String)
    (hs : List (String × String))
    (hb : env.buildReqErr = none)
    (hctx : ctxDone env.cancelAt t = false)
    (hw : env.world a = .reply st bd hs none)
    (hcond1 : ¬(shouldRetry cfg st none = true ∧ (a : Int) < cfg.maxRetries))
    (hcond2 : shouldRetry cfg st none = true ∧ 0 < a ∧ cfg.maxRetries ≤ (a : Int)) :
    doLoop cfg env u a t le (fuel + 1) =
      ⟨{}, some (.maxRetriesStatus st), [Event.netCall a t]⟩ := by
  conv_lhs => rw [doLoop]
  rw [hb]
  simp only [hctx, Bool.false_eq_true, if_false, hw]
  rw [if_neg hcond1, if_pos hcond2]

/-- One loop iteration: live context, readable reply, not retried: the
response is returned as success whatever its status. -/
theorem doLoop_reply_ok (cfg : Config) (env : Env) (u : String) (a t : Nat)
    (le : Option GoErr) (fuel : Nat) (st : Int) (bd : String)
    (hs : List (String × String))
    (hb : env.buildReqErr = none)
    (hctx : ctxDone env.cancelAt t = false)
    (hw : env.world a = .reply st bd hs none)
    (hcond1 : ¬(shouldRetry cfg st none = true ∧ (a : Int) < cfg.maxRetries))
    (hcond2 : ¬(shouldRetry cfg st none = true ∧ 0 < a ∧ cfg.maxRetries ≤ (a : Int))) :
    doLoop cfg env u a t le (fuel + 1) =
      ⟨⟨st, bd, hs, u⟩, none, [Event.netCall a t]⟩ := by
  conv_lhs => rw [doLoop]
  rw [hb]
  simp only [hctx, Bool.false_eq_true, if_false, hw]
  rw [if_neg hcond1, if_neg hcond2]

/-- C4: with `RetryOn` set, its verdict alone decides retry; with `RetryOn`
absent, `shouldRetry` is true whenever the error is non-nil, true whenever the
status is in the `RetryStatus` list, and false for a status outside the list
with a nil error. -/
theorem c4_theorem (cfg : Config) (status : Int) (err : Option String) :
    (∀ p, cfg.retryOn = some p → shouldRetry cfg status err = p status err) ∧
    (cfg.retryOn = none → err.isSome = true → shouldRetry cfg status err = true) ∧
    (cfg.retryOn = none → status ∈ cfg.retryStatus → shouldRetry cfg status err = true) ∧
    (cfg.retryOn = none → status ∉ cfg.retryStatus → err = none →
      shouldRetry cfg status err = false) := by
  refine ⟨?_, ?_, ?_, ?_⟩
  · intro p hp
    simp [shouldRetry, hp]
  · intro hn he
    simp [shouldRetry, hn, he]
  · intro hn hmem
    cases err <;> simp [shouldRetry, hn, hmem]
  · intro hn hmem he
    subst he
    simp [shouldRetry, hn, hmem]

/-- C4 witness: concrete instances of each clause of `c4_theorem`. -/
theorem c4_witness :
    shouldRetry { retryOn := some (fun s _ => s == 418) } 418 none = true ∧
    shouldRetry { retryStatus := [500, 502] } 200 (some "boom") = true ∧
    shouldRetry { retryStatus := [500, 502] } 502 none = true ∧
    shouldRetry { retryStatus := [500, 502] } 201 none = false := by
  refine ⟨?_, ?_, ?_, ?_⟩
  · rw [(c4_theorem { retryOn := some (fun s _ => s == 418) } 418 none).1
      (fun s _ => s == 418) rfl]
    decide
  · exact (c4_theorem { retryStatus := [500, 502] } 200 (some "boom")).2.1 rfl rfl
  · exact (c4_theorem { retryStatus := [500, 502] } 502 none).2.2.1 rfl (by decide)
  · exact (c4_theorem { retryStatus := [500, 502] } 201 none).2.2.2 rfl (by decide) rfl

/-- C9: an empty request URL returns `ErrEmptyURL` and a URL on which
`url.Parse` fails returns `ErrInvalidURL` wrapping the parse error; in both
cases the trace is empty, so no network attempt is made. -/
theorem c9_theorem (cfg : Config) (env : Env) (r : Request) :
    (r.url = "" → Do cfg env r = ⟨{}, some .emptyURL, []⟩) ∧
    (∀ e, r.url ≠ "" → env.parseResult = .error e →
      Do cfg env r = ⟨{}, some (.invalidURL e), []⟩) := by
  constructor
  · intro h
    simp [Do, h]
  · intro e h hp
    simp [Do, h, hp]

/-- C2: with `MaxRetries = 0`, `Do` makes exactly one network attempt and
returns the received response with a nil error regardless of its status
(hypotheses: the URL is non-empty and parses, request construction succeeds,
and the context is live at the single attempt, which receives a reply whose
body reads without error). -/
theorem c2_theorem (cfg : Config) (env : Env) (r : Request) (u : String)
    (st : Int) (bd : String) (hs : List (String × String))
    (hm : cfg.maxRetries = 0)
    (hu : r.url ≠ "") (hp : env.parseResult = .ok u)
    (hb : env.buildReqErr = none)
    (hc : ctxDone env.cancelAt 0 = false)
    (hw : env.world 0 = .reply st bd hs none) :
    Do cfg env r = ⟨⟨st, bd, hs, u⟩, none, [Event.netCall 0 0]⟩ := by
  unfold Do
  rw [if_neg hu, hp]
  have hfuel : (cfg.maxRetries + 1).toNat = 0 + 1 := by omega
  rw [hfuel]
  simp [doLoop, hb, hc, hw, hm]

/-- C5: a context cancelled before `Do` starts yields the context's own
cancellation error (which is not the max-retries error), even against a
server whose responses are always retryable. -/
theorem c5_theorem (cfg : Config) (env : Env) (r : Request) (u : String)
    (st : Nat → Int) (bd : Nat → String) (hs : Nat → List (String × String))
    (hm : 0 ≤ cfg.maxRetries)
    (hu : r.url ≠ "") (hp : env.parseResult = .ok u)
    (hb : env.buildReqErr = none)
    (hpre : ctxDone env.cancelAt 0 = true)
    (hw : ∀ a, env.world a = .reply (st a) (bd a) (hs a) none)
    (hr : ∀ a, shouldRetry cfg (st a) none = true) :
    (Do cfg env r).err = some .ctxCanceled ∧
    DoError.ctxCanceled.isMaxRetries = false := by
  have hfuel : (cfg.maxRetries + 1).toNat = cfg.maxRetries.toNat + 1 := by omega
  have hdo : Do cfg env r = ⟨{}, some .ctxCanceled, [Event.netCall 0 0]⟩ := by
    unfold Do
    rw [if_neg hu, hp, hfuel]
    exact doLoop_cancelled cfg env u 0 0 none _ hb hpre
  rw [hdo]
  exact ⟨rfl, rfl⟩

/-- C6 (amended): the code does not check the context before a backoff sleep
(see the counterexample, where a sleep is entered with the context already
cancelled); what holds is that every network call observes the bound context,
so a loop iteration entered with a cancelled context — in particular the
iteration following a sleep during which cancellation arrived — returns the
context's own cancellation error immediately, distinguishable from retry
exhaustion. -/
theorem c6_theorem (cfg : Config) (env : Env) (u : String) (a t : Nat)
    (le : Option GoErr) (fuel : Nat)
    (hb : env.buildReqErr = none)
    (hc : ctxDone env.cancelAt t = true) :
    doLoop cfg env u a t le (fuel + 1) = ⟨{}, some .ctxCanceled, [Event.netCall a t]⟩ ∧
    DoError.ctxCanceled.isMaxRetries = false :=
  ⟨doLoop_cancelled cfg env u a t le fuel hb hc, rfl⟩

theorem netCalls_nil : netCalls [] = 0 := rfl

theorem netCalls_netCall_cons (a t : Nat) (tr : List Event) :
    netCalls (Event.netCall a t :: tr) = netCalls tr + 1 := by
  simp [netCalls, List.filter_cons]

theorem netCalls_sleep_cons (a t : Nat) (d : Duration) (tr : List Event) :
    netCalls (Event.sleep a t d :: tr) = netCalls tr := by
  simp [netCalls, List.filter_cons]

/-- Loop invariant behind C1 (amended): against replies whose statuses are
always retryable, a live context, and `MaxRetries = N`, the loop started at
attempt `a = N - k` performs `k + 1` further network calls and ends in the
in-loop `ErrMaxRetries` return carrying the final attempt's status. Requires
`1 ≤ N`: the `attempt > 0` guard of that return needs a positive final
attempt index. -/
theorem doLoop_retryable_reply (cfg : Config) (env : Env) (u : String) (N : Nat)
    (st : Nat → Int) (bd : Nat → String) (hd : Nat → List (String × String))
    (hmN : cfg.maxRetries = (N : Int)) (hN : 1 ≤ N)
    (hb : env.buildReqErr = none) (hcan : env.cancelAt = none)
    (hw : ∀ i, env.world i = .reply (st i) (bd i) (hd i) none)
    (hr : ∀ i, shouldRetry cfg (st i) none = true) :
    ∀ (k a t : Nat) (le : Option GoErr), a + k = N →
      (doLoop cfg env u a t le (k + 1)).err = some (.maxRetriesStatus (st N)) ∧
      (doLoop cfg env u a t le (k + 1)).resp = {} ∧
      netCalls (doLoop cfg env u a t le (k + 1)).trace = k + 1 := by
  have hctx : ∀ t, ctxDone env.cancelAt t = false := by
    intro t
    simp [ctxDone, hcan]
  intro k
  induction k with
  | zero =>
    intro a t le hak
    have ha : a = N := by omega
    have hnlt : ¬(shouldRetry cfg (st a) none = true ∧ (a : Int) < cfg.maxRetries) := by
      rintro ⟨-, hlt⟩
      rw [hmN] at hlt
      exact absurd hlt (by exact_mod_cast (by omega : ¬a < N))
    have hstop : shouldRetry cfg (st a) none = true ∧ 0 < a ∧ cfg.maxRetries ≤ (a : Int) := by
      refine ⟨hr a, by omega, ?_⟩
      rw [hmN]
      exact_mod_cast (by omega : N ≤ a)
    rw [doLoop_reply_maxRetries cfg env u a t le 0 (st a) (bd a) (hd a)
      hb (hctx t) (hw a) hnlt hstop, ha]
    exact ⟨rfl, rfl, rfl⟩
  | succ k ih =>
    intro a t le hak
    have halt : (a : Int) < cfg.maxRetries := by
      rw [hmN]
      exact_mod_cast (by omega : a < N)
    obtain ⟨e1, e2, e3⟩ := ih (a + 1) (t + 2) (some (.retryableStatus (st a))) (by omega)
    rw [doLoop_reply_retry cfg env u a t le (k + 1) (st a) (bd a) (hd a)
      hb (hctx t) (hw a) ⟨hr a, halt⟩]
    refine ⟨e1, e2, ?_⟩
    simp only [netCalls_netCall_cons, netCalls_sleep_cons, e3]

/-- C1 (amended): for `MaxRetries = N` with `N ≥ 1` (the claim fails at
`N = 0`, see the counterexample) and a server whose responses are always
retryable, `Do` performs exactly `N + 1` network attempts and returns the
`ErrMaxRetries`-wrapping error rather than the response. -/
theorem c1_theorem (cfg : Config) (env : Env) (r : Request) (u : String) (N : Nat)
    (st : Nat → Int) (bd : Nat → String) (hd : Nat → List (String × String))
    (hmN : cfg.maxRetries = (N : Int)) (hN : 1 ≤ N)
    (hu : r.url ≠ "") (hp : env.parseResult = .ok u)
    (hb : env.buildReqErr = none) (hcan : env.cancelAt = none)
    (hw : ∀ i, env.world i = .reply (st i) (bd i) (hd i) none)
    (hr : ∀ i, shouldRetry cfg (st i) none = true) :
    (Do cfg env r).err = some (.maxRetriesStatus (st N)) ∧
    (DoError.maxRetriesStatus (st N)).isMaxRetries = true ∧
    (Do cfg env r).resp = {} ∧
    netCalls (Do cfg env r).trace = N + 1 := by
  have hfuel : (cfg.maxRetries + 1).toNat = N + 1 := by omega
  have hdo : ∀ P : DoResult → Prop, P (doLoop cfg env u 0 0 none (N + 1)) →
      P (Do cfg env r) := by
    intro P hP
    unfold Do
    rw [if_neg hu, hp, hfuel]
    exact hP
  obtain ⟨e1, e2, e3⟩ :=
    doLoop_retryable_reply cfg env u N st bd hd hmN hN hb hcan hw hr N 0 0 none (by omega)
  exact ⟨hdo (fun x => x.err = _) e1, rfl, hdo (fun x => x.resp = _) e2,
    hdo (fun x => netCalls x.trace = _) e3⟩

/-- C1: counterexample to the claim as stated, at `MaxRetries = 0`. The
always-500 server is retryable under the normalized default policy, yet `Do`
makes its single attempt and returns the 500 response with a nil error, not
`ErrMaxRetries`. -/
theorem c1_counterexample :
    cfgN0.maxRetries = 0 ∧ shouldRetry cfgN0 500 none = true ∧
    Do cfgN0 env500 reqEx = ⟨⟨500, "", [], exampleURL⟩, none, [Event.netCall 0 0]⟩ := by
  refine ⟨rfl, by decide, rfl⟩

/-- C1 witness: `N = 2` against the always-500 server: three attempts, then
the `ErrMaxRetries` error. -/
theorem c1_witness :
    (Do (normalizeConfig { maxRetries := 2 }) env500 reqEx).err =
      some (.maxRetriesStatus 500) ∧
    netCalls (Do (normalizeConfig { maxRetries := 2 }) env500 reqEx).trace = 3 := by
  obtain ⟨e1, -, -, e3⟩ :=
    c1_theorem (normalizeConfig { maxRetries := 2 }) env500 reqEx exampleURL 2
      (fun _ => 500) (fun _ => "") (fun _ => []) (by decide) (by decide)
      (by decide) rfl rfl rfl (fun _ => rfl) (fun _ => rfl)
  exact ⟨e1, e3⟩

/-- Loop invariant behind C3 (amended): when every attempt fails with a
retryable transport-level error and the context stays live, the loop retries
until attempts are exhausted and then returns the plain wrapped transport
error of the final attempt from inside the loop — the post-loop
`ErrMaxRetries` return is never reached. -/
theorem doLoop_transport_err (cfg : Config) (env : Env) (u : String) (N : Nat)
    (e : Nat → String)
    (hmN : cfg.maxRetries = (N : Int))
    (hb : env.buildReqErr = none) (hcan : env.cancelAt = none)
    (hw : ∀ i, env.world i = .netErr (e i))
    (hr : ∀ i, shouldRetry cfg 0 (some (e i)) = true) :
    ∀ (k a t : Nat) (le : Option GoErr), a + k = N →
      (doLoop cfg env u a t le (k + 1)).err = some (.requestFailed (e N)) ∧
      netCalls (doLoop cfg env u a t le (k + 1)).trace = k + 1 := by
  have hctx : ∀ t, ctxDone env.cancelAt t = false := by
    intro t
    simp [ctxDone, hcan]
  intro k
  induction k with
  | zero =>
    intro a t le hak
    have ha : a = N := by omega
    have hnlt : ¬(shouldRetry cfg 0 (some (e a)) = true ∧ (a : Int) < cfg.maxRetries) := by
      rintro ⟨-, hlt⟩
      rw [hmN] at hlt
      exact absurd hlt (by exact_mod_cast (by omega : ¬a < N))
    rw [doLoop_netErr_stop cfg env u a t le 0 (e a) hb (hctx t) (hw a) hnlt, ha]
    exact ⟨rfl, rfl⟩
  | succ k ih =>
    intro a t le hak
    have halt : (a : Int) < cfg.maxRetries := by
      rw [hmN]
      exact_mod_cast (by omega : a < N)
    obtain ⟨e1, e3⟩ := ih (a + 1) (t + 2) (some (.transport (e a))) (by omega)
    rw [doLoop_netErr_retry cfg env u a t le (k + 1) (e a) hb (hctx t) (hw a) ⟨hr a, halt⟩]
    refine ⟨e1, ?_⟩
    simp only [netCalls_netCall_cons, netCalls_sleep_cons, e3]

/-- C3 (amended): when every attempt fails with a retryable transport-level
error until retries are exhausted (context live), `Do` performs exactly
`N + 1` attempts and returns the wrapped transport error of the last attempt
("httpx: request failed"), which is not the `ErrMaxRetries` sentinel; the
post-loop `ErrMaxRetries`-wrapping-`lastErr` return is unreachable. -/
theorem c3_theorem (cfg : Config) (env : Env) (r : Request) (u : String) (N : Nat)
    (e : Nat → String)
    (hmN : cfg.maxRetries = (N : Int))
    (hu : r.url ≠ "") (hp : env.parseResult = .ok u)
    (hb : env.buildReqErr = none) (hcan : env.cancelAt = none)
    (hw : ∀ i, env.world i = .netErr (e i))
    (hr : ∀ i, shouldRetry cfg 0 (some (e i)) = true) :
    (Do cfg env r).err = some (.requestFailed (e N)) ∧
    (DoError.requestFailed (e N)).isMaxRetries = false ∧
    netCalls (Do cfg env r).trace = N + 1 := by
  have hfuel : (cfg.maxRetries + 1).toNat = N + 1 := by omega
  have hdo : ∀ P : DoResult → Prop, P (doLoop cfg env u 0 0 none (N + 1)) →
      P (Do cfg env r) := by
    intro P hP
    unfold Do
    rw [if_neg hu, hp, hfuel]
    exact hP
  obtain ⟨e1, e3⟩ :=
    doLoop_transport_err cfg env u N e hmN hb hcan hw hr N 0 0 none (by omega)
  exact ⟨hdo (fun x => x.err = _) e1, rfl, hdo (fun x => netCalls x.trace = _) e3⟩

/-- C3: counterexample to the claim as stated. With `MaxRetries = 1` and a
transport that always fails with a retryable error, `Do` exhausts its two
attempts and returns the wrapped transport error, whose kind does not match
`ErrMaxRetries`. -/
theorem c3_counterexample :
    cfgN1.maxRetries = 1 ∧ shouldRetry cfgN1 0 (some "boom") = true ∧
    (Do cfgN1 envBoom reqEx).err = some (.requestFailed "boom") ∧
    (DoError.requestFailed "boom").isMaxRetries = false := by
  refine ⟨rfl, rfl, rfl, rfl⟩

/-- C3 witness: the amended statement instantiated at `N = 1`. -/
theorem c3_witness :
    (Do cfgN1 envBoom reqEx).err = some (.requestFailed "boom") ∧
    netCalls (Do cfgN1 envBoom reqEx).trace = 2 := by
  obtain ⟨e1, -, e3⟩ :=
    c3_theorem cfgN1 envBoom reqEx exampleURL 1 (fun _ => "boom")
      (by decide) (by decide) rfl rfl rfl (fun _ => rfl) (fun _ => rfl)
  exact ⟨e1, e3⟩

/-- C2 witness: the always-500 server with `MaxRetries = 0`: one attempt, the
500 response, nil error. -/
theorem c2_witness :
    Do cfgN0 env500 reqEx = ⟨⟨500, "", [], exampleURL⟩, none, [Event.netCall 0 0]⟩ :=
  c2_theorem cfgN0 env500 reqEx exampleURL 500 "" [] rfl (by decide) rfl rfl rfl rfl

/-- C5 witness: a pre-cancelled context against the always-500 server. -/
theorem c5_witness :
    (Do cfgN0 envPre reqEx).err = some .ctxCanceled ∧
    DoError.ctxCanceled.isMaxRetries = false :=
  c5_theorem cfgN0 envPre reqEx exampleURL (fun _ => 500) (fun _ => "") (fun _ => [])
    (by decide) (by decide) rfl rfl rfl (fun _ => rfl) (fun _ => rfl)

/-- C6: counterexample to the claim as stated. The context is cancelled from
clock 1, immediately after the first network call returns its retryable 500;
the code still enters the first backoff sleep, at clock 1, with the context
already cancelled — no cancellation check precedes the sleep — and the
cancellation only surfaces at the next network call. -/
theorem c6_counterexample :
    ctxDone envMid.cancelAt 1 = true ∧
    (Do cfgN1 envMid reqEx).trace =
      [Event.netCall 0 0, Event.sleep 0 1 second, Event.netCall 1 2] ∧
    (Do cfgN1 envMid reqEx).err = some .ctxCanceled :=
  ⟨rfl, rfl, rfl⟩

/-- C6 witness: the amended statement at the loop state following the sleep of
the counterexample's run. -/
theorem c6_witness :
    doLoop cfgN1 envMid exampleURL 1 2 (some (.retryableStatus 500)) 1 =
      ⟨{}, some .ctxCanceled, [Event.netCall 1 2]⟩ ∧
    DoError.ctxCanceled.isMaxRetries = false :=
  c6_theorem cfgN1 envMid exampleURL 1 2 (some (.retryableStatus 500)) 0 rfl rfl

/-- C9 witness: the empty URL and a URL whose parse fails, both with an empty
trace. -/
theorem c9_witness :
    Do cfgN0 env500 { url := "" } = ⟨{}, some .emptyURL, []⟩ ∧
    Do cfgN0 envBadURL reqEx = ⟨{}, some (.invalidURL "missing protocol scheme"), []⟩ :=
  ⟨(c9_theorem cfgN0 env500 { url := "" }).1 rfl,
   (c9_theorem cfgN0 envBadURL reqEx).2 "missing protocol scheme" (by decide) rfl⟩

theorem sleepEvents_nil : sleepEvents [] = [] := rfl

theorem sleepEvents_netCall_cons (a t : Nat) (tr : List Event) :
    sleepEvents (Event.netCall a t :: tr) = sleepEvents tr := by
  simp [sleepEvents, List.filterMap_cons]

theorem sleepEvents_sleep_cons (a t : Nat) (d : Duration) (tr : List Event) :
    sleepEvents (Event.sleep a t d :: tr) = (a, t, d) :: sleepEvents tr := by
  simp [sleepEvents, List.filterMap_cons]

/-- The capped backoff computation is a `min`. -/
theorem sleepBackoff_eq_min (cfg : Config) (a j : Nat) :
    sleepBackoff cfg a j =
      min (cfg.backoffInitial * 2 ^ a + (j : Int) * millisecond) cfg.backoffMax := by
  unfold sleepBackoff
  rcases le_or_lt (cfg.backoffInitial * 2 ^ a + (j : Int) * millisecond) cfg.backoffMax
    with h | h
  · rw [if_neg (not_lt.2 h), min_eq_left h]
  · rw [if_pos h, min_eq_right h.le]

theorem sleepShape_step (cfg : Config) (env : Env) (a t m : Nat) :
    (List.range (m + 1)).map (sleepShape cfg env a t) =
      sleepShape cfg env a t 0 :: (List.range m).map (sleepShape cfg env (a + 1) (t + 2)) := by
  rw [List.range_succ_eq_map, List.map_cons, List.map_map]
  refine congrArg₂ List.cons rfl (List.map_congr_left ?_)
  intro i _
  show sleepShape cfg env a t (i + 1) = sleepShape cfg env (a + 1) (t + 2) i
  unfold sleepShape
  have e1 : a + (i + 1) = a + 1 + i := by omega
  have e2 : t + 2 * (i + 1) + 1 = t + 2 + 2 * i + 1 := by omega
  rw [e1, e2]

/-- Every run of the loop produces backoff sleeps of consecutive attempt
indices `a, a + 1, ...` at clocks `t + 1, t + 3, ...`, each sleeping the
`sleepBackoff` delay for its attempt's jitter draw. -/
theorem doLoop_sleep_shape (cfg : Config) (env : Env) (u : String) :
    ∀ (fuel a t : Nat) (le : Option GoErr), ∃ m : Nat,
      sleepEvents (doLoop cfg env u a t le fuel).trace =
        (List.range m).map (sleepShape cfg env a t) := by
  intro fuel
  induction fuel with
  | zero =>
    intro a t le
    exact ⟨0, by rw [doLoop_zero]; simp [sleepEvents]⟩
  | succ fuel ih =>
    intro a t le
    rcases hb : env.buildReqErr with _ | e
    swap
    · exact ⟨0, by rw [doLoop_buildReq cfg env u a t le fuel e hb]; simp [sleepEvents]⟩
    by_cases hctx : ctxDone env.cancelAt t = true
    · refine ⟨0, ?_⟩
      rw [doLoop_cancelled cfg env u a t le fuel hb hctx]
      simp [sleepEvents_netCall_cons, sleepEvents_nil]
    · have hctx2 : ctxDone env.cancelAt t = false := by
        cases hcc : ctxDone env.cancelAt t
        · rfl
        · exact absurd hcc hctx
      rcases hw : env.world a with e | ⟨st, bd, hs, re⟩
      · by_cases hcond : shouldRetry cfg 0 (some e) = true ∧ (a : Int) < cfg.maxRetries
        · obtain ⟨m, hm⟩ := ih (a + 1) (t + 2) (some (.transport e))
          refine ⟨m + 1, ?_⟩
          rw [doLoop_netErr_retry cfg env u a t le fuel e hb hctx2 hw hcond]
          simp only [sleepEvents_netCall_cons, sleepEvents_sleep_cons, hm, sleepShape_step]
          rfl
        · refine ⟨0, ?_⟩
          rw [doLoop_netErr_stop cfg env u a t le fuel e hb hctx2 hw hcond]
          simp [sleepEvents_netCall_cons, sleepEvents_nil]
      · rcases re with _ | re
        · by_cases hcond : shouldRetry cfg st none = true ∧ (a : Int) < cfg.maxRetries
          · obtain ⟨m, hm⟩ := ih (a + 1) (t + 2) (some (.retryableStatus st))
            refine ⟨m + 1, ?_⟩
            rw [doLoop_reply_retry cfg env u a t le fuel st bd hs hb hctx2 hw hcond]
            simp only [sleepEvents_netCall_cons, sleepEvents_sleep_cons, hm, sleepShape_step]
            rfl
          · by_cases hcond2 : shouldRetry cfg st none = true ∧ 0 < a ∧ cfg.maxRetries ≤ (a : Int)
            · refine ⟨0, ?_⟩
              rw [doLoop_reply_maxRetries cfg env u a t le fuel st bd hs hb hctx2 hw hcond hcond2]
              simp [sleepEvents_netCall_cons, sleepEvents_nil]
            · refine ⟨0, ?_⟩
              rw [doLoop_reply_ok cfg env u a t le fuel st bd hs hb hctx2 hw hcond hcond2]
              simp [sleepEvents_netCall_cons, sleepEvents_nil]
        · by_cases hcond : shouldRetry cfg st (some re) = true ∧ (a : Int) < cfg.maxRetries
          · obtain ⟨m, hm⟩ := ih (a + 1) (t + 2) (some (.readBody re))
            refine ⟨m + 1, ?_⟩
            rw [doLoop_readErr_retry cfg env u a t le fuel st bd hs re hb hctx2 hw hcond]
            simp only [sleepEvents_netCall_cons, sleepEvents_sleep_cons, hm, sleepShape_step]
            rfl
          · refine ⟨0, ?_⟩
            rw [doLoop_readErr_stop cfg env u a t le fuel st bd hs re hb hctx2 hw hcond]
            simp [sleepEvents_netCall_cons, sleepEvents_nil]

/-- C7: in every run of `Do`, the `k`-th backoff sleep (zero-based) is taken
at attempt index `k` — the first retry sleeps with `attempt = 0`, so its delay
is `BackoffInitial` plus jitter, not `2 × BackoffInitial` — and its delay is
`min(BackoffInitial * 2^k + j, BackoffMax)` for a jitter `j` of fewer than
250 milliseconds (`rand.Intn(250)` milliseconds in the source). -/
theorem c7_theorem (cfg : Config) (env : Env) (r : Request)
    (hj : ∀ i, env.jitter i < 250) :
    ∀ (k : Nat) (ev : Nat × Nat × Duration),
      (sleepEvents (Do cfg env r).trace).get? k = some ev →
      ev.1 = k ∧
      ∃ j : Nat, j < 250 ∧
        ev.2.2 = min (cfg.backoffInitial * 2 ^ k + (j : Int) * millisecond)
          cfg.backoffMax := by
  intro k ev hev
  by_cases hu : r.url = ""
  · unfold Do at hev
    rw [if_pos hu] at hev
    simp [sleepEvents] at hev
  · unfold Do at hev
    rw [if_neg hu] at hev
    rcases hp : env.parseResult with e | u
    · rw [hp] at hev
      simp [sleepEvents] at hev
    · rw [hp] at hev
      obtain ⟨m, hm⟩ := doLoop_sleep_shape cfg env u ((cfg.maxRetries + 1).toNat) 0 0 none
      rw [hm] at hev
      have hlt : k < m := by
        rcases List.get?_eq_some.1 hev with ⟨hh, -⟩
        simpa using hh
      rw [List.get?_map, List.get?_range hlt] at hev
      have hev2 : sleepShape cfg env 0 0 k = ev := by
        simpa using hev
      rw [← hev2]
      unfold sleepShape
      refine ⟨by simp, env.jitter (0 + k), hj _, ?_⟩
      simp only [Nat.zero_add]
      exact sleepBackoff_eq_min cfg k (env.jitter k)

/-- C7 witness: the first sleep of a concrete run uses attempt index 0 and the
1-second default `BackoffInitial` with zero jitter. -/
theorem c7_witness :
    (sleepEvents (Do cfgN1 envBoom reqEx).trace).get? 0 = some (0, 1, second) ∧
    ∃ j : Nat, j < 250 ∧ (second : Duration) =
      min (cfgN1.backoffInitial * 2 ^ 0 + (j : Int) * millisecond) cfgN1.backoffMax := by
  refine ⟨rfl, ?_⟩
  have h := c7_theorem cfgN1 envBoom reqEx
    (fun _ => by show (0 : Nat) < 250; decide) 0 (0, 1, second) rfl
  simpa using h.2

theorem headerGet_headerSet_eq (h : Header) (a v k : String) (heq : keyFold a k = true) :
    headerGet (headerSet h a v) k = some v := by
  rw [headerGet_headerSet, if_pos heq]

theorem headerGet_headerSet_ne (h : Header) (a v k : String) (hne : keyFold a k = false) :
    headerGet (headerSet h a v) k = headerGet h k := by
  rw [headerGet_headerSet]
  simp [hne]

/-- A conditional `Set` of a key that does not fold to `k` never affects the
lookup of `k`. -/
theorem headerGet_if_set_ne (c : Prop) [Decidable c] (h : Header) (a v k : String)
    (hne : keyFold a k = false) :
    headerGet (if c then h else headerSet h a v) k = headerGet h k := by
  by_cases hc : c
  · rw [if_pos hc]
  · rw [if_neg hc, headerGet_headerSet_ne h a v k hne]

/-- The caller's per-request headers are applied last, so they win for every
key, over base headers and over the auto-filled defaults alike. -/
theorem setRequestHeaders_custom (cfg : Config) (uaDraw : Nat)
    (custom : List (String × String)) (hcd : DistinctKeys custom)
    (a v : String) (hmem : (a, v) ∈ custom) (k : String) (hak : keyFold a k = true) :
    headerGet (setRequestHeaders cfg uaDraw custom) k = some v := by
  simp only [setRequestHeaders]
  exact headerGet_setAll_in custom _ a v k hcd hmem hak

/-- When the caller supplies no User-Agent, the auto-selected one is the final
value — whatever `BaseHeaders` contained, since the auto-fill check consults
only the per-request headers. -/
theorem setRequestHeaders_ua (cfg : Config) (uaDraw : Nat)
    (custom : List (String × String))
    (hUA : (headerLookup custom "User-Agent").2 = false) :
    headerGet (setRequestHeaders cfg uaDraw custom) "User-Agent" =
      some (pickUA cfg uaDraw) := by
  have hnc : ∀ p ∈ custom, keyFold p.1 "User-Agent" = false :=
    (headerLookup_false_iff custom "User-Agent").1 hUA
  simp only [setRequestHeaders]
  rw [headerGet_setAll_not_in custom _ _ hnc,
    headerGet_if_set_ne _ _ _ _ _ (by decide),
    headerGet_if_set_ne _ _ _ _ _ (by decide),
    hUA, if_neg (by simp), headerGet_headerSet_eq _ _ _ _ (by decide)]

/-- When the caller supplies no Accept, the default `*/*` is the final value. -/
theorem setRequestHeaders_accept (cfg : Config) (uaDraw : Nat)
    (custom : List (String × String))
    (hAc : (headerLookup custom "Accept").2 = false) :
    headerGet (setRequestHeaders cfg uaDraw custom) "Accept" = some "*/*" := by
  have hnc : ∀ p ∈ custom, keyFold p.1 "Accept" = false :=
    (headerLookup_false_iff custom "Accept").1 hAc
  simp only [setRequestHeaders]
  rw [headerGet_setAll_not_in custom _ _ hnc,
    headerGet_if_set_ne _ _ _ _ _ (by decide),
    hAc, if_neg (by simp), headerGet_headerSet_eq _ _ _ _ (by decide)]

/-- When the caller supplies no Accept-Language, the default is the final
value. -/
theorem setRequestHeaders_language (cfg : Config) (uaDraw : Nat)
    (custom : List (String × String))
    (hAL : (headerLookup custom "Accept-Language").2 = false) :
    headerGet (setRequestHeaders cfg uaDraw custom) "Accept-Language" =
      some "en-US,en;q=0.9" := by
  have hnc : ∀ p ∈ custom, keyFold p.1 "Accept-Language" = false :=
    (headerLookup_false_iff custom "Accept-Language").1 hAL
  simp only [setRequestHeaders]
  rw [headerGet_setAll_not_in custom _ _ hnc,
    hAL, if_neg (by simp), headerGet_headerSet_eq _ _ _ _ (by decide)]

/-- A base header whose key is none of the three auto-filled ones and is not
shadowed by the caller survives to the final header. -/
theorem setRequestHeaders_base (cfg : Config) (uaDraw : Nat)
    (custom : List (String × String)) (hbd : DistinctKeys cfg.baseHeaders)
    (a v : String) (hmem : (a, v) ∈ cfg.baseHeaders) (k : String)
    (hak : keyFold a k = true)
    (hnc : ∀ p ∈ custom, keyFold p.1 k = false)
    (hua : keyFold "User-Agent" k = false)
    (hac : keyFold "Accept" k = false)
    (hal : keyFold "Accept-Language" k = false) :
    headerGet (setRequestHeaders cfg uaDraw custom) k = some v := by
  simp only [setRequestHeaders]
  rw [headerGet_setAll_not_in custom _ _ hnc,
    headerGet_if_set_ne _ _ _ _ _ hal,
    headerGet_if_set_ne _ _ _ _ _ hac,
    headerGet_if_set_ne _ _ _ _ _ hua]
  exact headerGet_setAll_in cfg.baseHeaders [] a v k hbd hmem hak

/-- C8: header merging per attempt. (1) A caller-supplied entry decides its
key's final value (case-insensitively) — the caller wins over defaults and
base headers for every key; (2)–(4) User-Agent, Accept, and Accept-Language
are auto-set (the latter two to `*/*` and `en-US,en;q=0.9`) exactly when the
caller's per-request headers lack that key under case-insensitive lookup;
(5) base headers are applied first and survive for keys not auto-filled and
not supplied by the caller. -/
theorem c8_theorem (cfg : Config) (uaDraw : Nat) (custom : List (String × String))
    (hcd : DistinctKeys custom) :
    (∀ a v, (a, v) ∈ custom → ∀ k, keyFold a k = true →
      headerGet (setRequestHeaders cfg uaDraw custom) k = some v) ∧
    ((headerLookup custom "User-Agent").2 = false →
      headerGet (setRequestHeaders cfg uaDraw custom) "User-Agent" =
        some (pickUA cfg uaDraw)) ∧
    ((headerLookup custom "Accept").2 = false →
      headerGet (setRequestHeaders cfg uaDraw custom) "Accept" = some "*/*") ∧
    ((headerLookup custom "Accept-Language").2 = false →
      headerGet (setRequestHeaders cfg uaDraw custom) "Accept-Language" =
        some "en-US,en;q=0.9") ∧
    (DistinctKeys cfg.baseHeaders → ∀ a v, (a, v) ∈ cfg.baseHeaders → ∀ k,
      keyFold a k = true → (∀ p ∈ custom, keyFold p.1 k = false) →
      keyFold "User-Agent" k = false → keyFold "Accept" k = false →
      keyFold "Accept-Language" k = false →
      headerGet (setRequestHeaders cfg uaDraw custom) k = some v) :=
  ⟨fun a v hmem k hak => setRequestHeaders_custom cfg uaDraw custom hcd a v hmem k hak,
   setRequestHeaders_ua cfg uaDraw custom,
   setRequestHeaders_accept cfg uaDraw custom,
   setRequestHeaders_language cfg uaDraw custom,
   fun hbd a v hmem k hak hnc hua hac hal =>
     setRequestHeaders_base cfg uaDraw custom hbd a v hmem k hak hnc hua hac hal⟩

/-- C8 witness: with a base `X-Base` header and caller headers carrying
`x-custom` and a case-variant `ACCEPT`: the caller's entry wins
case-insensitively, User-Agent and Accept-Language are auto-filled, and the
base header survives. -/
theorem c8_witness :
    headerGet (setRequestHeaders cfgHdr 0 customHdr) "X-Custom" = some "cv" ∧
    headerGet (setRequestHeaders cfgHdr 0 customHdr) "User-Agent" =
      some (pickUA cfgHdr 0) ∧
    headerGet (setRequestHeaders cfgHdr 0 customHdr) "Accept-Language" =
      some "en-US,en;q=0.9" ∧
    headerGet (setRequestHeaders cfgHdr 0 customHdr) "x-base" = some "bv" := by
  obtain ⟨h1, h2, -, h4, h5⟩ := c8_theorem cfgHdr 0 customHdr (by decide)
  exact ⟨h1 "x-custom" "cv" (by decide) "X-Custom" (by decide),
    h2 rfl, h4 rfl,
    h5 (by decide) "X-Base" "bv" (by decide) "x-base" (by decide)
      (by decide) (by decide) (by decide) (by decide)⟩

/-- C10: when `BaseHeaders` carries a User-Agent but the caller's per-request
headers do not, the auto-selected User-Agent is the final value — the
auto-fill check consults only the per-request headers, never `BaseHeaders`,
so the base value is overwritten on every attempt. -/
theorem c10_theorem (cfg : Config) (uaDraw : Nat) (custom : List (String × String))
    (v : String)
    (hbase : ("User-Agent", v) ∈ cfg.baseHeaders)
    (hUA : (headerLookup custom "User-Agent").2 = false) :
    headerGet (setRequestHeaders cfg uaDraw custom) "User-Agent" =
      some (pickUA cfg uaDraw) :=
  setRequestHeaders_ua cfg uaDraw custom hUA

/-- C10 witness: the base `User-Agent: base-ua` is overwritten by the
auto-selected User-Agent. -/
theorem c10_witness :
    ("User-Agent", "base-ua") ∈ cfgHdr.baseHeaders ∧
    headerGet (setRequestHeaders cfgHdr 0 [("x-custom", "cv")]) "User-Agent" =
      some (pickUA cfgHdr 0) :=
  ⟨by decide, c10_theorem cfgHdr 0 [("x-custom", "cv")] "base-ua" (by decide) rfl⟩

end Httpx
